import Mathlib

/-!
Verification of the core of the `supper` media library organizer: a shallow
embedding of its tag-sanitizing string helpers, subtitle entity construction,
rename/link strategies with their existence/force semantics, the scraper
aggregator, and the batch rename orchestrator, together with theorems settling
the specified properties of each.

Machine strings are modelled as Lean `String`/`List Char`; the filesystem as a
finite map from paths to file data plus a set of directories; Go errors as an
inductive of the error values produced and discriminated by the code.
-/

namespace Supper

/-- Errors produced or discriminated by the core. `mediaExists` embeds the
`mediaExistsError` type (the only error the orchestrator matches by type);
`mediaNotSupported` embeds the provider sentinel tested by
`IsErrMediaNotSupported`; `noScraper` the aggregator exhaustion error;
`pathUnavailable` the move/symlink/hardlink errors for path-less media;
`templateMissing` the missing-template errors; the rest carry their role. -/
inductive GoError where
  | mediaExists
  | mediaNotSupported
  | noScraper
  | pathUnavailable (strategy : String)
  | templateMissing (kind : String)
  | unknownMediaFormat
  | unknownAction (action : String)
  | osError (msg : String)
  | other (msg : String)
deriving DecidableEq, Repr

/-- The character class of `pathRegex`, the regexp
removed by `cleanString`: percent, slash, question mark, backslash, star,
colon, pipe, double quote, angle brackets, newline, carriage return. -/
def illegalChars : List Char :=
  ['%', '/', '?', '\\', '*', ':', '|', '\"', '<', '>', '\n', '\r']

/-- `cleanString` removes every occurrence of a `pathRegex` character
(`ReplaceAllString` with the empty replacement is pointwise deletion). -/
def cleanString (s : String) : String :=
  String.mk (s.data.filter (fun c => !(illegalChars.contains c)))

/-- The whitespace class of Go regexp `\s`: tab, newline, form feed,
carriage return, space. -/
def isSpace (c : Char) : Bool :=
  c = ' ' || c = '\t' || c = '\n' || c = '\x0c' || c = '\r'

/-- Whether a character list starts with a whitespace character. -/
def headSpace : List Char → Bool
  | [] => false
  | c :: _ => isSpace c

/-- Core of `truncateSpaces`: the action of
`spaceRegex.ReplaceAllString(str, " ")` for the pattern of two or more
whitespace characters, whose leftmost greedy matches are exactly the maximal
runs of two or more whitespace characters. Single left-to-right scan:
a whitespace character followed by another whitespace character opens such a
run, emitted as one space; `inRun` records that the scanner is inside a run
already emitted, whose remaining characters are swallowed; every other
character is copied unchanged (in particular an isolated whitespace
character is kept as itself, since the pattern needs two). -/
def truncScan (inRun : Bool) : List Char → List Char
  | [] => []
  | c :: rest =>
    if inRun && isSpace c then
      truncScan true rest
    else if isSpace c && headSpace rest then
      ' ' :: truncScan true rest
    else
      c :: truncScan false rest

/-- `truncateSpaces` replaces all consecutive space characters with a single
space. -/
def truncateSpaces (s : String) : String :=
  String.mk (truncScan false s.data)

/-- `noRun l` holds when `l` has no two adjacent whitespace characters,
i.e. `l` contains no match of the `spaceRegex` pattern. -/
def noRun : List Char → Bool
  | [] => true
  | [_] => true
  | c1 :: c2 :: rest => !(isSpace c1 && isSpace c2) && noRun (c2 :: rest)

/-- Scan of Go `filepath.Ext` on the reversed path: walk characters from the
end; stop with no extension at a path separator; at the first dot return the
dot together with the suffix accumulated so far. -/
def extRevAux : List Char → List Char → List Char
  | [], _ => []
  | c :: rest, acc =>
    if c = '/' then []
    else if c = '.' then c :: acc
    else extRevAux rest (c :: acc)

/-- Go `filepath.Ext`: the suffix beginning at the final dot in the final
path element; empty if there is no dot. -/
def filepathExt (s : String) : String :=
  String.mk (extRevAux s.data.reverse [])

/-- Go `strings.Split` with separator `"."` on a character list. -/
def splitOnDot : List Char → List (List Char)
  | [] => [[]]
  | c :: rest =>
    if c = '.' then [] :: splitOnDot rest
    else
      match splitOnDot rest with
      | p :: ps => (c :: p) :: ps
      | [] => [[c]]

/-- Go `filepath.Dir` (without path cleaning, which no claim touches): all
but the final slash-separated element; `"."` when there is no slash. -/
def filepathDir (s : String) : String :=
  let parts := s.splitOn "/"
  if parts.length ≤ 1 then "."
  else String.intercalate "/" (parts.dropLast)

/-- Go `filepath.Join` of a directory and a file name (without path
cleaning, which no claim touches). -/
def filepathJoin (dir name : String) : String :=
  if dir = "" then name else dir ++ "/" ++ name

/-! ### Subtitle entities (`media/subtitle.go`) -/

/-- The part of `os.FileInfo` the subtitle constructor consults. -/
structure FileInfo where
  name : String
deriving DecidableEq, Repr

/-- The two error values of `NewLocalSubtitle`: `nonSubtitle` for a file
whose extension is not `.srt`, `parseError` for the
defensive branch taken when splitting on dots yields fewer than two parts. -/
inductive SubErr where
  | nonSubtitle
  | parseError
deriving DecidableEq, Repr

/-- A structured language tag as returned by `language.Make` of the external
`golang.org/x/text/language` collaborator. Its value is abstracted as the raw
token; what matters to the core is that `language.Make` is total — its Go
signature returns a `Tag` with no error, and the call site in
`NewLocalSubtitle` uses it without any error check. -/
structure LangTag where
  code : String
deriving DecidableEq, Repr

/-- `language.Make`: total — unparseable input yields a (default) tag,
never an error. -/
def language_Make (s : String) : LangTag :=
  LangTag.mk s

/-- `LocalSubtitle`: a subtitle discovered on disk, carrying its file and
language tag. -/
structure LocalSubtitle where
  file : FileInfo
  lang : LangTag
deriving DecidableEq, Repr

/-- `LocalSubtitle.IsHI` returns `false` unconditionally. -/
def LocalSubtitle.IsHI (_ : LocalSubtitle) : Bool :=
  false

/-- `LocalSubtitle.Language` returns the stored language tag. -/
def LocalSubtitle.Language (l : LocalSubtitle) : LangTag :=
  l.lang

/-- The token `NewLocalSubtitle` parses as the language: the second-to-last
dot-delimited segment of the file name (`parts[len(parts)-2]`). -/
def subtitleToken (name : String) : String :=
  let parts := splitOnDot name.data
  String.mk (parts.getD (parts.length - 2) [])

/-- `NewLocalSubtitle` (`media/subtitle.go`): reject non-`.srt` extensions;
split the name on dots; defensively reject fewer than two parts; otherwise
build a `LocalSubtitle` whose language is `language.Make` of the
second-to-last segment. -/
def NewLocalSubtitle (file : FileInfo) : Except SubErr LocalSubtitle :=
  if filepathExt file.name ≠ ".srt" then
    .error SubErr.nonSubtitle
  else if (splitOnDot file.name.data).length < 2 then
    .error SubErr.parseError
  else
    .ok (LocalSubtitle.mk file (language_Make (subtitleToken file.name)))

/-! ### Filesystem model

A finite map from paths to file data (association list) plus a set of
directories and a logical clock for modification times. I/O-level failures
outside the program's control (permissions, full disk) are not modelled:
`MkdirAll` and `Create` always succeed, as does `Open` on a local media item
(the item carries its bytes). -/

/-- How an entry came to exist: a regular file, a symbolic link to a target
path, or a hard link created from a source path. -/
inductive FileKind where
  | regular
  | symlinkTo (target : String)
  | hardlinkTo (source : String)
deriving DecidableEq, Repr

/-- Data of one filesystem entry: kind, byte content, modification time. -/
structure FileData where
  kind : FileKind
  content : String
  mtime : Nat
deriving DecidableEq, Repr

/-- The filesystem state. -/
structure FS where
  files : List (String × FileData)
  dirs : List String
  clock : Nat
deriving DecidableEq, Repr

/-- `os.Stat` succeeding on a path: the file exists. -/
def FS.statOk (fs : FS) (p : String) : Bool :=
  (fs.files.lookup p).isSome

/-- `os.Remove`: delete the entry; error when it does not exist. -/
def FS.remove (fs : FS) (p : String) : Except GoError FS :=
  if fs.statOk p then
    .ok { fs with files := fs.files.filter (fun kv => kv.1 != p) }
  else
    .error (GoError.osError "remove: no such file or directory")

/-- `os.MkdirAll`: idempotent directory creation. -/
def FS.mkdirAll (fs : FS) (d : String) : FS :=
  if fs.dirs.contains d then fs else { fs with dirs := d :: fs.dirs }

/-- `os.Create` followed by writing `content`: truncate or create the
destination as a regular file stamped with the current clock. -/
def FS.create (fs : FS) (p : String) (content : String) : FS :=
  { fs with
    files := (p, FileData.mk FileKind.regular content fs.clock)
      :: fs.files.filter (fun kv => kv.1 != p)
    clock := fs.clock + 1 }

/-- `os.Rename`: move the entry at `src` to `dest` (data preserved);
error when `src` does not exist. -/
def FS.rename (fs : FS) (src dest : String) : Except GoError FS :=
  match fs.files.lookup src with
  | none => .error (GoError.osError "rename: no such file or directory")
  | some d =>
    .ok { fs with
      files := (dest, d)
        :: (fs.files.filter (fun kv => kv.1 != src)).filter (fun kv => kv.1 != dest) }

/-- `os.Symlink`: create a symbolic link at `dest` pointing to `target`;
error when `dest` already exists. -/
def FS.symlink (fs : FS) (target dest : String) : Except GoError FS :=
  if fs.statOk dest then .error (GoError.osError "symlink: file exists")
  else
    .ok { fs with
      files := (dest, FileData.mk (FileKind.symlinkTo target) "" fs.clock) :: fs.files
      clock := fs.clock + 1 }

/-- `os.Link`: create a hard link at `dest` from `src`; error when `dest`
already exists or `src` does not. -/
def FS.link (fs : FS) (src dest : String) : Except GoError FS :=
  if fs.statOk dest then .error (GoError.osError "link: file exists")
  else
    match fs.files.lookup src with
    | none => .error (GoError.osError "link: no such file or directory")
    | some d =>
      .ok { fs with
        files := (dest, FileData.mk (FileKind.hardlinkTo src) d.content d.mtime) :: fs.files }

/-! ### Local media files and renamers (`part_000`) -/

/-- `types.Local`: a discovered media file with its name, its byte content
(`Open`), and optionally a concrete filesystem path (`types.Pather`; `none`
models a local media value that does not implement `Pather`). -/
structure Local where
  name : String
  content : String
  path : Option String
deriving DecidableEq, Repr

/-- `type renamer func(types.Local, string) error`, in state-passing form:
the filesystem threads through and survives the error case (Go mutations are
not rolled back on error). -/
def RenamerFn : Type :=
  Local → String → FS → Except GoError Unit × FS

/-- `copyRenamer`: ensure the parent directory, open the source, create the
destination and stream the bytes. -/
def copyRenamer : RenamerFn := fun local_ dest fs =>
  let fs1 := fs.mkdirAll (filepathDir dest)
  (.ok (), fs1.create dest local_.content)

/-- `moveRenamer`: ensure the parent directory; fail when the media exposes
no path; otherwise `os.Rename` the source path to the destination. -/
def moveRenamer : RenamerFn := fun local_ dest fs =>
  let fs1 := fs.mkdirAll (filepathDir dest)
  match local_.path with
  | none => (.error (GoError.pathUnavailable "move"), fs1)
  | some p =>
    match fs1.rename p dest with
    | .error e => (.error e, fs1)
    | .ok fs2 => (.ok (), fs2)

/-- `symlinkRenamer`: ensure the parent directory; fail when the media
exposes no path; otherwise `os.Symlink` the source path at the destination. -/
def symlinkRenamer : RenamerFn := fun local_ dest fs =>
  let fs1 := fs.mkdirAll (filepathDir dest)
  match local_.path with
  | none => (.error (GoError.pathUnavailable "symlink"), fs1)
  | some p =>
    match fs1.symlink p dest with
    | .error e => (.error e, fs1)
    | .ok fs2 => (.ok (), fs2)

/-- `hardlinkRenamer`: ensure the parent directory; fail when the media
exposes no path; otherwise `os.Link` the source path at the destination. -/
def hardlinkRenamer : RenamerFn := fun local_ dest fs =>
  let fs1 := fs.mkdirAll (filepathDir dest)
  match local_.path with
  | none => (.error (GoError.pathUnavailable "hardlink"), fs1)
  | some p =>
    match fs1.link p dest with
    | .error e => (.error e, fs1)
    | .ok fs2 => (.ok (), fs2)

/-- `renamer.Rename`, the sanity-check wrapper: stat the destination; when it
exists and `force` is false, fail with the media-exists error; when it exists
and `force` is true, remove it first; then run the wrapped renamer. -/
def RenamerFn.Rename (r : RenamerFn) (local_ : Local) (dest : String)
    (force : Bool) (fs : FS) : Except GoError Unit × FS :=
  if !force && fs.statOk dest then
    (.error GoError.mediaExists, fs)
  else if fs.statOk dest then
    match fs.remove dest with
    | .error e => (.error e, fs)
    | .ok fs1 => r local_ dest fs1
  else
    r local_ dest fs

/-- `Renamers`, the registry of available renaming actions. -/
def Renamers : List (String × RenamerFn) :=
  [("copy", copyRenamer), ("move", moveRenamer),
   ("symlink", symlinkRenamer), ("hardlink", hardlinkRenamer)]

/-! ### Media model, scraper aggregator and batch orchestrator (`part_000`)

Interface values (`types.Media`, `types.Scraper`) are embedded by their
observable behaviour: a scraper is a function from the media item to a
result, and a media item carries its file together with the behaviour of its
`Merge` method — an error, or the post-merge narrowing (`TypeMovie` /
`TypeEpisode` / neither) with the fields the rename templates read. -/

/-- A remotely-scraped media value (ephemeral, consumed by a merge); its
content is irrelevant to the orchestrator, which only threads it through. -/
structure RemoteMedia where
  tag : Nat
deriving DecidableEq, Repr

/-- The fields `renameMovie` reads from a narrowed movie: `MovieName()`,
`Year()`, and the rendered `String()` forms of quality, codec and group. -/
structure MovieFields where
  movieName : String
  year : Int
  quality : String
  codec : String
  group : String
deriving DecidableEq, Repr

/-- The fields `renameEpisode` reads from a narrowed episode. -/
structure EpisodeFields where
  tvShow : String
  episodeName : String
  episode : Int
  season : Int
  quality : String
  codec : String
  group : String
deriving DecidableEq, Repr

/-- Result of type-narrowing a merged media item: `TypeMovie` succeeds,
`TypeEpisode` succeeds, or neither does. -/
inductive MediaKind where
  | movie (f : MovieFields)
  | episode (f : EpisodeFields)
  | unknown
deriving Repr

/-- A local media item: its file, and the behaviour of its `Merge` method —
for a given scraped value, either an error or the post-merge narrowing. -/
structure MediaItem where
  file : Local
  merge : RemoteMedia → Except GoError MediaKind

/-- `types.Scraper`: `Scrape(media) -> (Media, error)`. -/
def Scraper : Type :=
  MediaItem → Except GoError RemoteMedia

/-- `provider.IsErrMediaNotSupported`. -/
def isErrMediaNotSupported : GoError → Bool
  | GoError.mediaNotSupported => true
  | _ => false

/-- `scrapeMedia`: try each scraper in order; on `MediaNotSupportedError`
continue with the next, on any other error abort with that error, on the
first success return it; with the collection exhausted, fail with the
no-scraper error. -/
def scrapeMedia (scrapers : List Scraper) (m : MediaItem) :
    Except GoError RemoteMedia :=
  match scrapers with
  | [] => .error GoError.noScraper
  | s :: rest =>
    match s m with
    | .error e =>
      if isErrMediaNotSupported e then scrapeMedia rest m else .error e
    | .ok scraped => .ok scraped

/-- A movie filename template: literal text interleaved with the enumerated
movie substitution fields (the anonymous struct of `renameMovie`). -/
inductive MovieTok where
  | lit (s : String)
  | movie
  | year
  | quality
  | codec
  | group
deriving DecidableEq, Repr

/-- Execute a movie template against the substitution data. -/
def execMovieTemplate (t : List MovieTok) (f : MovieFields) : String :=
  String.join (t.map fun tok =>
    match tok with
    | MovieTok.lit s => s
    | MovieTok.movie => f.movieName
    | MovieTok.year => toString f.year
    | MovieTok.quality => f.quality
    | MovieTok.codec => f.codec
    | MovieTok.group => f.group)

/-- An episode filename template over the enumerated episode fields (the
anonymous struct of `renameEpisode`). -/
inductive EpisodeTok where
  | lit (s : String)
  | tvShow
  | epName
  | episode
  | season
  | quality
  | codec
  | group
deriving DecidableEq, Repr

/-- Execute an episode template against the substitution data. -/
def execEpisodeTemplate (t : List EpisodeTok) (f : EpisodeFields) : String :=
  String.join (t.map fun tok =>
    match tok with
    | EpisodeTok.lit s => s
    | EpisodeTok.tvShow => f.tvShow
    | EpisodeTok.epName => f.episodeName
    | EpisodeTok.episode => toString f.episode
    | EpisodeTok.season => toString f.season
    | EpisodeTok.quality => f.quality
    | EpisodeTok.codec => f.codec
    | EpisodeTok.group => f.group)

/-- The configuration surface the orchestrator consults: strict and force
flags, the configured action name, and per-kind template and directory. -/
structure Config where
  strict : Bool
  force : Bool
  action : String
  moviesTemplate : Option (List MovieTok)
  moviesDirectory : String
  tvTemplate : Option (List EpisodeTok)
  tvDirectory : String

/-- The application: its ordered scrapers and its configuration. -/
structure Application where
  scrapers : List Scraper
  config : Config

/-- `renameMovie`: require a movie template; substitute the enumerated
fields, cleaning the free-text ones; collapse whitespace runs after
appending the original extension; join with the movies directory; and
delegate to the wrapped renamer with the configured force flag. -/
def renameMovie (a : Application) (local_ : Local) (m : MovieFields)
    (rename : RenamerFn) (fs : FS) : Except GoError Unit × FS :=
  match a.config.moviesTemplate with
  | none => (.error (GoError.templateMissing "movies"), fs)
  | some t =>
    let data : MovieFields :=
      { movieName := cleanString m.movieName
        year := m.year
        quality := m.quality
        codec := m.codec
        group := cleanString m.group }
    let filename := truncateSpaces (execMovieTemplate t data ++ filepathExt local_.name)
    let dest := filepathJoin a.config.moviesDirectory filename
    rename.Rename local_ dest a.config.force fs

/-- `renameEpisode`: as `renameMovie`, over the TV-show template, fields and
directory. -/
def renameEpisode (a : Application) (local_ : Local) (e : EpisodeFields)
    (rename : RenamerFn) (fs : FS) : Except GoError Unit × FS :=
  match a.config.tvTemplate with
  | none => (.error (GoError.templateMissing "tvshows"), fs)
  | some t =>
    let data : EpisodeFields :=
      { tvShow := cleanString e.tvShow
        episodeName := cleanString e.episodeName
        episode := e.episode
        season := e.season
        quality := e.quality
        codec := e.codec
        group := cleanString e.group }
    let filename := truncateSpaces (execEpisodeTemplate t data ++ filepathExt local_.name)
    let dest := filepathJoin a.config.tvDirectory filename
    rename.Rename local_ dest a.config.force fs

/-- The movie/episode/unknown dispatch of the loop body of `RenameMedia`:
narrow to a movie and rename it, else narrow to an episode and rename it,
else fail with the unknown-media-format error. -/
def renameByKind (a : Application) (rename : RenamerFn) (local_ : Local)
    (kind : MediaKind) (fs : FS) : Except GoError Unit × FS :=
  match kind with
  | MediaKind.movie mf => renameMovie a local_ mf rename fs
  | MediaKind.episode ef => renameEpisode a local_ ef rename fs
  | MediaKind.unknown => (.error GoError.unknownMediaFormat, fs)

/-- Severities of the log lines the orchestrator emits per item. -/
inductive LogLevel where
  | debug
  | info
  | warn
  | error
deriving DecidableEq, Repr

/-- One log line: severity and message. -/
structure LogEntry where
  level : LogLevel
  msg : String
deriving DecidableEq, Repr

/-- The per-item loop of `RenameMedia`: scrape (abort the batch on error),
merge (abort the batch on error), rename by narrowed kind; on a rename-stage
error under strict mode abort the batch; otherwise log the media-exists
error as a skip at warn severity and any other error as a failure at error
severity, and continue; on success log at info severity and continue. -/
def renameMediaLoop (a : Application) (doRename : RenamerFn)
    (items : List MediaItem) (fs : FS) (log : List LogEntry) :
    Except GoError Unit × FS × List LogEntry :=
  match items with
  | [] => (.ok (), fs, log)
  | m :: rest =>
    match scrapeMedia a.scrapers m with
    | .error e => (.error e, fs, log)
    | .ok scraped =>
      match m.merge scraped with
      | .error e => (.error e, fs, log)
      | .ok kind =>
        match renameByKind a doRename m.file kind fs with
        | (.error e, fs1) =>
          if a.config.strict then
            (.error e, fs1, log)
          else
            let entry :=
              if e = GoError.mediaExists then
                LogEntry.mk LogLevel.warn "Rename skipped"
              else
                LogEntry.mk LogLevel.error "Rename failed"
            renameMediaLoop a doRename rest fs1 (log ++ [entry])
        | (.ok _, fs1) =>
          renameMediaLoop a doRename rest fs1
            (log ++ [LogEntry.mk LogLevel.info "Media renamed"])

/-- `RenameMedia`: look the configured action up in the registry (error when
unknown) and run the per-item loop over the media list. -/
def RenameMedia (a : Application) (items : List MediaItem) (fs : FS) :
    Except GoError Unit × FS × List LogEntry :=
  match Renamers.lookup a.config.action with
  | none => (.error (GoError.unknownAction a.config.action), fs, [])
  | some r => renameMediaLoop a r items fs []

/-! ### Concrete fixtures

Closed inputs used by witnesses and counterexamples: a movie media item, a
path-less media item, scrapers of each observable behaviour, strict and
lenient application configurations, and filesystem states with and without
the rename destination. -/

/-- A local movie file exposing a concrete path. -/
def fxLocal : Local :=
  Local.mk "m.mkv" "bytes" (some "downloads/m.mkv")

/-- A local media file exposing no concrete path. -/
def fxLocalNoPath : Local :=
  Local.mk "m.mkv" "bytes" none

/-- Movie fields as narrowed after a merge. -/
def fxMovieFields : MovieFields :=
  MovieFields.mk "Movie" 2020 "720p" "x264" "GRP"

/-- A scraped remote media value. -/
def fxRemote : RemoteMedia :=
  RemoteMedia.mk 0

/-- A media item whose merge succeeds and narrows to a movie. -/
def fxItem : MediaItem :=
  MediaItem.mk fxLocal (fun _ => .ok (MediaKind.movie fxMovieFields))

/-- A media item whose merge fails. -/
def fxItemMergeFail : MediaItem :=
  MediaItem.mk fxLocal (fun _ => .error (GoError.other "media types do not match"))

/-- A media item whose merge succeeds but which narrows to neither movie nor
episode. -/
def fxItemUnknown : MediaItem :=
  MediaItem.mk fxLocal (fun _ => .ok MediaKind.unknown)

/-- A scraper that succeeds. -/
def fxScrapeOk : Scraper :=
  fun _ => .ok fxRemote

/-- A scraper that signals the media-not-supported sentinel. -/
def fxScrapeNot : Scraper :=
  fun _ => .error GoError.mediaNotSupported

/-- A scraper that fails with an unrelated error. -/
def fxScrapeBoom : Scraper :=
  fun _ => .error (GoError.osError "connection refused")

/-- A movie template substituting just the movie name. -/
def fxTemplate : List MovieTok :=
  [MovieTok.movie]

/-- Strict configuration: copy action, no force. -/
def fxConfigStrict : Config :=
  Config.mk true false "copy" (some fxTemplate) "out" none "tv"

/-- Lenient configuration: copy action, no force. -/
def fxConfigLenient : Config :=
  Config.mk false false "copy" (some fxTemplate) "out" none "tv"

/-- Strict application with one succeeding scraper. -/
def fxAppStrict : Application :=
  Application.mk [fxScrapeOk] fxConfigStrict

/-- Lenient application with one succeeding scraper. -/
def fxAppLenient : Application :=
  Application.mk [fxScrapeOk] fxConfigLenient

/-- Lenient application whose only scraper fails with an unrelated error. -/
def fxAppBoom : Application :=
  Application.mk [fxScrapeBoom] fxConfigLenient

/-- Pre-existing data at the rename destination. -/
def fxData : FileData :=
  FileData.mk FileKind.regular "old content" 5

/-- Filesystem on which the destination `out/Movie.mkv` of `fxItem` under
either fixture configuration already exists. -/
def fxFsExists : FS :=
  FS.mk [("out/Movie.mkv", fxData)] [] 10

/-- Empty filesystem. -/
def fxFsEmpty : FS :=
  FS.mk [] [] 0

/-- A subtitle file whose locale token `@@@@` is not parseable as a locale. -/
def fxSubFile : FileInfo :=
  FileInfo.mk "movie.@@@@.srt"

/-- A subtitle file with a well-formed locale token. -/
def fxSubFileGood : FileInfo :=
  FileInfo.mk "show.en.srt"

/-! ## Helper lemmas -/

/-- `mkdirAll` touches only the directory set, never the files. -/
theorem FS.mkdirAll_files (fs : FS) (d : String) :
    (fs.mkdirAll d).files = fs.files := by
  unfold FS.mkdirAll
  split <;> rfl

/-- The scan started outside a run preserves whether the list begins with
whitespace. -/
theorem headSpace_truncScan (l : List Char) :
    headSpace (truncScan false l) = headSpace l := by
  cases l with
  | nil => rfl
  | cons c rest =>
    simp only [truncScan, Bool.false_and, Bool.false_eq_true, if_false]
    by_cases h : (isSpace c && headSpace rest) = true
    · rw [if_pos h]
      simp only [headSpace]
      have := (Bool.and_eq_true _ _).mp h
      rw [this.1]
      decide
    · rw [if_neg h]
      rfl

/-- Output of the scan has no two adjacent whitespace characters; moreover
the scan started inside a run never emits a leading whitespace character. -/
theorem noRun_truncScan (l : List Char) :
    ∀ b : Bool, noRun (truncScan b l) = true ∧
      (b = true → headSpace (truncScan b l) = false) := by
  induction l with
  | nil => intro b; exact ⟨rfl, fun _ => rfl⟩
  | cons c rest ih =>
    intro b
    simp only [truncScan]
    by_cases h1 : (b && isSpace c) = true
    · rw [if_pos h1]
      have hb : b = true := ((Bool.and_eq_true _ _).mp h1).1
      exact ⟨(ih true).1, fun _ => (ih true).2 rfl⟩
    · rw [if_neg h1]
      by_cases h2 : (isSpace c && headSpace rest) = true
      · rw [if_pos h2]
        constructor
        · have hnr := (ih true).1
          have hhd := (ih true).2 rfl
          cases he : truncScan true rest with
          | nil => rfl
          | cons t ts =>
            rw [he] at hnr hhd
            simp only [noRun, Bool.and_eq_true, Bool.not_eq_true']
            refine ⟨?_, hnr⟩
            simp only [headSpace] at hhd
            simp [hhd]
        · intro hb
          rw [hb] at h1
          simp only [Bool.true_and] at h1
          have := (Bool.and_eq_true _ _).mp h2
          simp [this.1] at h1
      · rw [if_neg h2]
        constructor
        · have hnr := (ih false).1
          cases he : truncScan false rest with
          | nil => rfl
          | cons t ts =>
            rw [he] at hnr
            simp only [noRun, Bool.and_eq_true, Bool.not_eq_true']
            refine ⟨?_, hnr⟩
            by_cases hc : isSpace c = true
            · rw [hc] at h2 ⊢
              simp only [Bool.true_and] at h2 ⊢
              have hht : headSpace (truncScan false rest) = headSpace rest :=
                headSpace_truncScan rest
              rw [he] at hht
              simp only [headSpace] at hht
              rw [hht]
              simpa using h2
            · simp only [Bool.not_eq_true] at hc
              simp [hc]
        · intro hb
          rw [hb] at h1
          simp only [Bool.true_and] at h1
          simp [headSpace, h1]

/-- On a list with no two adjacent whitespace characters the scan (started
outside a run) is the identity. -/
theorem truncScan_of_noRun (l : List Char) (h : noRun l = true) :
    truncScan false l = l := by
  induction l with
  | nil => rfl
  | cons c rest ih =>
    cases rest with
    | nil => simp [truncScan, headSpace]
    | cons d rs =>
      simp only [noRun, Bool.and_eq_true, Bool.not_eq_true'] at h
      have hcond : (isSpace c && headSpace (d :: rs)) = false := by
        simp only [headSpace]
        by_cases hc : isSpace c = true
        · rw [hc]
          simp only [Bool.true_and]
          rw [hc] at h
          simpa using h.1
        · simp at hc
          simp [hc]
      show (if (false && isSpace c) = true then truncScan true (d :: rs)
        else if (isSpace c && headSpace (d :: rs)) = true then
          ' ' :: truncScan true (d :: rs)
        else c :: truncScan false (d :: rs)) = c :: d :: rs
      rw [if_neg (by simp), if_neg (by simp [hcond])]
      have := ih (by simpa [noRun] using h.2)
      rw [this]

/-- Every nonempty scan result of `extRevAux` witnesses a dot in the scanned
characters. -/
theorem dot_mem_of_extRevAux (l : List Char) :
    ∀ acc : List Char, extRevAux l acc ≠ [] → '.' ∈ l := by
  induction l with
  | nil =>
    intro acc h
    simp [extRevAux] at h
  | cons c rest ih =>
    intro acc h
    by_cases hc : c = '/'
    · rw [extRevAux, if_pos hc] at h
      exact absurd rfl h
    · by_cases hd : c = '.'
      · rw [hd]
        exact List.mem_cons_self _ _
      · rw [extRevAux, if_neg hc, if_neg hd] at h
        exact List.mem_cons_of_mem _ (ih (c :: acc) h)

/-- `splitOnDot` always yields at least one part. -/
theorem splitOnDot_length_pos (l : List Char) :
    0 < (splitOnDot l).length := by
  cases l with
  | nil => simp [splitOnDot]
  | cons c rest =>
    simp only [splitOnDot]
    split
    · simp
    · split <;> simp

/-- A list containing a dot splits into at least two parts. -/
theorem splitOnDot_length_two (l : List Char) (h : '.' ∈ l) :
    2 ≤ (splitOnDot l).length := by
  induction l with
  | nil => simp at h
  | cons c rest ih =>
    by_cases hc : c = '.'
    · rw [splitOnDot, if_pos hc]
      have := splitOnDot_length_pos rest
      simp only [List.length_cons]
      omega
    · have hr : '.' ∈ rest := by
        rcases List.mem_cons.mp h with h1 | h1
        · exact absurd h1.symm hc
        · exact h1
      rw [splitOnDot, if_neg hc]
      have h2 := ih hr
      rcases hsp : splitOnDot rest with _ | ⟨p, ps⟩
      · have := splitOnDot_length_pos rest
        rw [hsp] at this
        simp at this
      · rw [hsp] at h2
        simp only [List.length_cons] at h2 ⊢
        omega

/-- A file name whose `filepath.Ext` is `.srt` splits on dots into at least
two parts. -/
theorem srt_parts_two (name : String) (h : filepathExt name = ".srt") :
    2 ≤ (splitOnDot name.data).length := by
  have hE : extRevAux name.data.reverse [] = ['.', 's', 'r', 't'] :=
    congrArg String.data h
  have hne : extRevAux name.data.reverse [] ≠ [] := by
    rw [hE]
    simp
  have hdotrev : '.' ∈ name.data.reverse := dot_mem_of_extRevAux _ [] hne
  exact splitOnDot_length_two _ (List.mem_reverse.mp hdotrev)

/-! ## Claim theorems -/

/-- C6: `truncateSpaces` is idempotent — for every string `s`,
`truncateSpaces (truncateSpaces s) = truncateSpaces s`. -/
theorem truncateSpaces_idempotent (s : String) :
    truncateSpaces (truncateSpaces s) = truncateSpaces s := by
  unfold truncateSpaces
  exact congrArg String.mk
    (truncScan_of_noRun _ ((noRun_truncScan s.data false).1))

/-- C7: the output of `cleanString` contains none of the
filesystem-illegal/path-separator characters of the removal alphabet. -/
theorem cleanString_no_illegal_chars (s : String) (c : Char)
    (h : c ∈ (cleanString s).data) : illegalChars.contains c = false := by
  have hf : c ∈ s.data.filter (fun d => !(illegalChars.contains d)) := h
  have := (List.mem_filter.mp hf).2
  simpa using this

/-- Witness for C7: the character `a` survives `cleanString "a%b"` and is
not in the removal alphabet. -/
theorem cleanString_no_illegal_chars_witness :
    'a' ∈ (cleanString "a%b").data ∧ illegalChars.contains 'a' = false :=
  ⟨by decide, cleanString_no_illegal_chars "a%b" 'a' (by decide)⟩

/-- C10: `LocalSubtitle.IsHI` returns `false` for every locally constructed
subtitle, regardless of the file it was constructed from. -/
theorem localSubtitle_isHI_false (l : LocalSubtitle) : l.IsHI = false :=
  rfl

/-- C9: the parse-error branch of `NewLocalSubtitle` is unreachable — every
file name whose extension is `.srt` splits on dots into at least two parts,
so construction never yields the parse error. -/
theorem srt_parse_error_unreachable (f : FileInfo)
    (h : filepathExt f.name = ".srt") :
    2 ≤ (splitOnDot f.name.data).length ∧
      NewLocalSubtitle f ≠ Except.error SubErr.parseError := by
  have h2 := srt_parts_two f.name h
  refine ⟨h2, ?_⟩
  unfold NewLocalSubtitle
  rw [if_neg (by simp [h]), if_neg (by omega)]
  intro hc
  exact Except.noConfusion hc

/-- Witness for C9 at the concrete file `show.en.srt`. -/
theorem srt_parse_error_unreachable_witness :
    filepathExt fxSubFileGood.name = ".srt" ∧
      (2 ≤ (splitOnDot fxSubFileGood.name.data).length ∧
        NewLocalSubtitle fxSubFileGood ≠ Except.error SubErr.parseError) :=
  ⟨rfl, srt_parse_error_unreachable fxSubFileGood rfl⟩

/-- C5 counterexample: the file `movie.@@@@.srt` has locale token `@@@@`,
which is not parseable as a locale, yet `NewLocalSubtitle` succeeds — it
produces a `Subtitle` whose tag is `language.Make` of the raw token instead
of failing with a `ParseError`. -/
theorem subtitle_unparseable_token_constructs :
    NewLocalSubtitle fxSubFile =
      Except.ok (LocalSubtitle.mk fxSubFile (LangTag.mk "@@@@")) ∧
      NewLocalSubtitle fxSubFile ≠ Except.error SubErr.parseError := by
  refine ⟨rfl, ?_⟩
  intro h
  have e1 : NewLocalSubtitle fxSubFile =
      Except.ok (LocalSubtitle.mk fxSubFile (LangTag.mk "@@@@")) := rfl
  exact Except.noConfusion (e1.symm.trans h)

/-- C5 as amended: for every file whose extension is `.srt`, entity
construction extracts the second-to-last dot-delimited segment and succeeds
unconditionally, its language being `language.Make` of that token (which
never fails; an unparseable token degrades to a default tag rather than a
`ParseError`). -/
theorem subtitle_srt_construction (f : FileInfo)
    (h : filepathExt f.name = ".srt") :
    NewLocalSubtitle f =
      Except.ok (LocalSubtitle.mk f (language_Make (subtitleToken f.name))) := by
  have h2 := srt_parts_two f.name h
  unfold NewLocalSubtitle
  rw [if_neg (by simp [h]), if_neg (by omega)]

/-- Witness for the amended C5 at the concrete file `show.en.srt` (locale
token `en`). -/
theorem subtitle_srt_construction_witness :
    filepathExt fxSubFileGood.name = ".srt" ∧
      NewLocalSubtitle fxSubFileGood =
        Except.ok (LocalSubtitle.mk fxSubFileGood
          (language_Make (subtitleToken fxSubFileGood.name))) :=
  ⟨rfl, subtitle_srt_construction fxSubFileGood rfl⟩

/-- C4: for every renamer strategy, local media item, destination and
filesystem on which the destination exists, `Rename` with `force = false`
returns the media-exists error and performs no filesystem mutation — the
state is returned unchanged, and in particular the destination entry
(content and modification time) is exactly what it was. -/
theorem rename_existing_dest_no_force (r : RenamerFn) (local_ : Local)
    (dest : String) (fs : FS) (h : fs.statOk dest = true) :
    RenamerFn.Rename r local_ dest false fs =
      (Except.error GoError.mediaExists, fs) ∧
      (RenamerFn.Rename r local_ dest false fs).2.files.lookup dest =
        fs.files.lookup dest := by
  have h1 : RenamerFn.Rename r local_ dest false fs =
      (Except.error GoError.mediaExists, fs) := by
    unfold RenamerFn.Rename
    rw [if_pos (by simp [h])]
  exact ⟨h1, by rw [h1]⟩

/-- Witness for C4: the copy strategy, an existing destination. -/
theorem rename_existing_dest_no_force_witness :
    fxFsExists.statOk "out/Movie.mkv" = true ∧
      (RenamerFn.Rename copyRenamer fxLocal "out/Movie.mkv" false fxFsExists =
        (Except.error GoError.mediaExists, fxFsExists) ∧
        (RenamerFn.Rename copyRenamer fxLocal "out/Movie.mkv" false
          fxFsExists).2.files.lookup "out/Movie.mkv" =
          fxFsExists.files.lookup "out/Movie.mkv") :=
  ⟨rfl, rename_existing_dest_no_force copyRenamer fxLocal "out/Movie.mkv"
    fxFsExists rfl⟩

/-- C8: for every local media item that exposes no concrete filesystem path,
the move, symlink and hardlink strategies each fail with the
path-unavailable error before performing any link operation (the file table
is untouched; only the idempotent parent-directory creation has happened),
while the copy strategy succeeds for such path-less media. -/
theorem pathless_link_strategies_fail (local_ : Local) (dest : String)
    (fs : FS) (h : local_.path = none) :
    (moveRenamer local_ dest fs).1 =
        Except.error (GoError.pathUnavailable "move") ∧
      (moveRenamer local_ dest fs).2.files = fs.files ∧
      (symlinkRenamer local_ dest fs).1 =
        Except.error (GoError.pathUnavailable "symlink") ∧
      (symlinkRenamer local_ dest fs).2.files = fs.files ∧
      (hardlinkRenamer local_ dest fs).1 =
        Except.error (GoError.pathUnavailable "hardlink") ∧
      (hardlinkRenamer local_ dest fs).2.files = fs.files ∧
      (copyRenamer local_ dest fs).1 = Except.ok () := by
  refine ⟨?_, ?_, ?_, ?_, ?_, ?_, ?_⟩ <;>
    simp [moveRenamer, symlinkRenamer, hardlinkRenamer, copyRenamer, h,
      FS.mkdirAll_files]

/-- Witness for C8: a path-less local media file on the empty filesystem. -/
theorem pathless_link_strategies_fail_witness :
    fxLocalNoPath.path = none ∧
      ((moveRenamer fxLocalNoPath "out/x.mkv" fxFsEmpty).1 =
        Except.error (GoError.pathUnavailable "move") ∧
      (moveRenamer fxLocalNoPath "out/x.mkv" fxFsEmpty).2.files =
        fxFsEmpty.files ∧
      (symlinkRenamer fxLocalNoPath "out/x.mkv" fxFsEmpty).1 =
        Except.error (GoError.pathUnavailable "symlink") ∧
      (symlinkRenamer fxLocalNoPath "out/x.mkv" fxFsEmpty).2.files =
        fxFsEmpty.files ∧
      (hardlinkRenamer fxLocalNoPath "out/x.mkv" fxFsEmpty).1 =
        Except.error (GoError.pathUnavailable "hardlink") ∧
      (hardlinkRenamer fxLocalNoPath "out/x.mkv" fxFsEmpty).2.files =
        fxFsEmpty.files ∧
      (copyRenamer fxLocalNoPath "out/x.mkv" fxFsEmpty).1 = Except.ok ()) :=
  ⟨rfl, pathless_link_strategies_fail fxLocalNoPath "out/x.mkv" fxFsEmpty rfl⟩

/-- C3: the aggregator `scrapeMedia` invokes scrapers in order — with every
scraper of a prefix signalling the media-not-supported sentinel, (i) the
first non-error result is returned without consulting any later scraper
(the result does not depend on the scrapers after it), (ii) any other error
aborts the aggregation and is returned to the caller, and (iii) with the
collection exhausted without a result it fails with the no-scraper error. -/
theorem scrapeMedia_ordered_first_success :
    (∀ (pre : List Scraper) (s : Scraper) (post : List Scraper)
      (m : MediaItem) (v : RemoteMedia),
      (∀ t ∈ pre, t m = Except.error GoError.mediaNotSupported) →
      s m = Except.ok v →
      scrapeMedia (pre ++ s :: post) m = Except.ok v) ∧
    (∀ (pre : List Scraper) (s : Scraper) (post : List Scraper)
      (m : MediaItem) (e : GoError),
      (∀ t ∈ pre, t m = Except.error GoError.mediaNotSupported) →
      s m = Except.error e → isErrMediaNotSupported e = false →
      scrapeMedia (pre ++ s :: post) m = Except.error e) ∧
    (∀ (scrapers : List Scraper) (m : MediaItem),
      (∀ t ∈ scrapers, t m = Except.error GoError.mediaNotSupported) →
      scrapeMedia scrapers m = Except.error GoError.noScraper) := by
  refine ⟨?_, ?_, ?_⟩
  · intro pre s post m v hpre hs
    induction pre with
    | nil =>
      simp only [List.nil_append, scrapeMedia, hs]
    | cons t ts ih =>
      have ht := hpre t (List.mem_cons_self _ _)
      simp only [List.cons_append, scrapeMedia, ht]
      rw [if_pos (by decide)]
      exact ih fun u hu => hpre u (List.mem_cons_of_mem _ hu)
  · intro pre s post m e hpre hs hns
    induction pre with
    | nil =>
      simp only [List.nil_append, scrapeMedia, hs]
      rw [if_neg (by simp [hns])]
    | cons t ts ih =>
      have ht := hpre t (List.mem_cons_self _ _)
      simp only [List.cons_append, scrapeMedia, ht]
      rw [if_pos (by decide)]
      exact ih fun u hu => hpre u (List.mem_cons_of_mem _ hu)
  · intro scrapers m hall
    induction scrapers with
    | nil => rfl
    | cons t ts ih =>
      have ht := hall t (List.mem_cons_self _ _)
      simp only [scrapeMedia, ht]
      rw [if_pos (by decide)]
      exact ih fun u hu => hall u (List.mem_cons_of_mem _ hu)

/-- Witness for C3: a not-supported scraper ahead of a success (with a
would-abort scraper after it, which is never consulted), an aborting error,
and an exhausted collection. -/
theorem scrapeMedia_ordered_first_success_witness :
    scrapeMedia [fxScrapeNot, fxScrapeOk, fxScrapeBoom] fxItem =
      Except.ok fxRemote ∧
    scrapeMedia [fxScrapeNot, fxScrapeBoom, fxScrapeOk] fxItem =
      Except.error (GoError.osError "connection refused") ∧
    scrapeMedia [fxScrapeNot, fxScrapeNot] fxItem =
      Except.error GoError.noScraper := by
  have hpre : ∀ t ∈ [fxScrapeNot],
      t fxItem = Except.error GoError.mediaNotSupported := by
    intro t ht
    rw [List.mem_singleton.mp ht]
    rfl
  have hall : ∀ t ∈ [fxScrapeNot, fxScrapeNot],
      t fxItem = Except.error GoError.mediaNotSupported := by
    intro t ht
    rcases List.mem_cons.mp ht with h1 | h1
    · rw [h1]
      rfl
    · rw [List.mem_singleton.mp h1]
      rfl
  exact ⟨scrapeMedia_ordered_first_success.1 [fxScrapeNot] fxScrapeOk
      [fxScrapeBoom] fxItem fxRemote hpre rfl,
    scrapeMedia_ordered_first_success.2.1 [fxScrapeNot] fxScrapeBoom
      [fxScrapeOk] fxItem (GoError.osError "connection refused") hpre rfl rfl,
    scrapeMedia_ordered_first_success.2.2 [fxScrapeNot, fxScrapeNot] fxItem
      hall⟩

/-- C1 counterexample: under strict mode, a media-exists rename failure does
abort the whole batch — `RenameMedia` of a strict application over one item
whose destination already exists (force false) returns the media-exists
error immediately, logging nothing, instead of treating it as a skip. -/
theorem strict_mode_media_exists_aborts_batch :
    RenameMedia fxAppStrict [fxItem] fxFsExists =
      (Except.error GoError.mediaExists, fxFsExists, []) :=
  rfl

/-- C1 as amended: under lenient mode only, a media-exists rename failure is
treated as a skip — logged at warn severity (lower than the error severity
used for other failures) — and the loop continues with the remaining items;
under strict mode the strict check precedes the skip handling, so the
error aborts the batch. -/
theorem media_exists_skip_lenient (a : Application) (r : RenamerFn)
    (m : MediaItem) (rest : List MediaItem) (fs fs1 : FS)
    (log : List LogEntry) (scraped : RemoteMedia) (kind : MediaKind)
    (h1 : a.config.strict = false)
    (h2 : scrapeMedia a.scrapers m = Except.ok scraped)
    (h3 : m.merge scraped = Except.ok kind)
    (h4 : renameByKind a r m.file kind fs =
      (Except.error GoError.mediaExists, fs1)) :
    renameMediaLoop a r (m :: rest) fs log =
      renameMediaLoop a r rest fs1
        (log ++ [LogEntry.mk LogLevel.warn "Rename skipped"]) := by
  simp [renameMediaLoop, h1, h2, h3, h4]

/-- Witness for the amended C1: a lenient application, one item whose
destination already exists; the item is logged as skipped at warn severity
and the loop proceeds to the rest of the list. -/
theorem media_exists_skip_lenient_witness :
    fxAppLenient.config.strict = false ∧
      scrapeMedia fxAppLenient.scrapers fxItem = Except.ok fxRemote ∧
      fxItem.merge fxRemote = Except.ok (MediaKind.movie fxMovieFields) ∧
      renameByKind fxAppLenient copyRenamer fxItem.file
        (MediaKind.movie fxMovieFields) fxFsExists =
        (Except.error GoError.mediaExists, fxFsExists) ∧
      renameMediaLoop fxAppLenient copyRenamer [fxItem] fxFsExists [] =
        renameMediaLoop fxAppLenient copyRenamer [] fxFsExists
          ([] ++ [LogEntry.mk LogLevel.warn "Rename skipped"]) :=
  ⟨rfl, rfl, rfl, rfl,
    media_exists_skip_lenient fxAppLenient copyRenamer fxItem [] fxFsExists
      fxFsExists [] fxRemote (MediaKind.movie fxMovieFields) rfl rfl rfl rfl⟩

/-- C2 counterexample: under lenient mode, a scrape failure is not logged
and skipped — it aborts the whole batch. `RenameMedia` of a lenient
application whose scraper fails with an unrelated error returns that error
immediately with an empty log. -/
theorem lenient_scrape_failure_aborts_batch :
    RenameMedia fxAppBoom [fxItem] fxFsEmpty =
      (Except.error (GoError.osError "connection refused"), fxFsEmpty, []) :=
  rfl

/-- C2 as amended: a scrape failure aborts the whole batch immediately, and
so does a merge failure, in lenient mode just as in strict mode; only a
failure of the rename stage (after scrape and merge succeeded) is logged as
failed at error severity under lenient mode with processing continuing to
the next item. -/
theorem scrape_merge_abort_rename_continues :
    (∀ (a : Application) (r : RenamerFn) (m : MediaItem)
      (rest : List MediaItem) (fs : FS) (log : List LogEntry) (e : GoError),
      scrapeMedia a.scrapers m = Except.error e →
      renameMediaLoop a r (m :: rest) fs log = (Except.error e, fs, log)) ∧
    (∀ (a : Application) (r : RenamerFn) (m : MediaItem)
      (rest : List MediaItem) (fs : FS) (log : List LogEntry)
      (scraped : RemoteMedia) (e : GoError),
      scrapeMedia a.scrapers m = Except.ok scraped →
      m.merge scraped = Except.error e →
      renameMediaLoop a r (m :: rest) fs log = (Except.error e, fs, log)) ∧
    (∀ (a : Application) (r : RenamerFn) (m : MediaItem)
      (rest : List MediaItem) (fs fs1 : FS) (log : List LogEntry)
      (scraped : RemoteMedia) (kind : MediaKind) (e : GoError),
      a.config.strict = false →
      scrapeMedia a.scrapers m = Except.ok scraped →
      m.merge scraped = Except.ok kind →
      renameByKind a r m.file kind fs = (Except.error e, fs1) →
      e ≠ GoError.mediaExists →
      renameMediaLoop a r (m :: rest) fs log =
        renameMediaLoop a r rest fs1
          (log ++ [LogEntry.mk LogLevel.error "Rename failed"])) := by
  refine ⟨?_, ?_, ?_⟩
  · intro a r m rest fs log e h
    simp [renameMediaLoop, h]
  · intro a r m rest fs log scraped e h1 h2
    simp [renameMediaLoop, h1, h2]
  · intro a r m rest fs fs1 log scraped kind e h0 h1 h2 h3 hne
    simp [renameMediaLoop, h0, h1, h2, h3, hne]

/-- Witness for the amended C2: a lenient scrape failure aborts, a lenient
merge failure aborts, and a lenient rename-stage failure (unknown media
kind) is logged at error severity with the loop continuing. -/
theorem scrape_merge_abort_rename_continues_witness :
    scrapeMedia fxAppBoom.scrapers fxItem =
      Except.error (GoError.osError "connection refused") ∧
      renameMediaLoop fxAppBoom copyRenamer [fxItem] fxFsEmpty [] =
        (Except.error (GoError.osError "connection refused"), fxFsEmpty, []) ∧
      renameMediaLoop fxAppLenient copyRenamer [fxItemMergeFail] fxFsEmpty [] =
        (Except.error (GoError.other "media types do not match"),
          fxFsEmpty, []) ∧
      renameMediaLoop fxAppLenient copyRenamer [fxItemUnknown] fxFsEmpty [] =
        renameMediaLoop fxAppLenient copyRenamer [] fxFsEmpty
          ([] ++ [LogEntry.mk LogLevel.error "Rename failed"]) :=
  ⟨rfl,
    scrape_merge_abort_rename_continues.1 fxAppBoom copyRenamer fxItem []
      fxFsEmpty [] (GoError.osError "connection refused") rfl,
    scrape_merge_abort_rename_continues.2.1 fxAppLenient copyRenamer
      fxItemMergeFail [] fxFsEmpty [] fxRemote
      (GoError.other "media types do not match") rfl rfl,
    scrape_merge_abort_rename_continues.2.2 fxAppLenient copyRenamer
      fxItemUnknown [] fxFsEmpty fxFsEmpty [] fxRemote MediaKind.unknown
      GoError.unknownMediaFormat rfl rfl rfl rfl (by decide)⟩

end Supper
